import Mathlib

/-
Verification development for `src/neural/models/classification/shufflenetv2.py`.

The architecture-assembly code of the source file is embedded shallowly:

* Each `torch.nn` module that the file instantiates becomes a constructor of the
  inductive type `Layer`.  An `nn.Sequential` container is modelled as a
  right-nested chain of `Layer.comp`, built by `seqL` (composition is applied
  left to right, exactly like iterating over the container's children).
* The source stores the left branch of `InvertedResidualBlock` as `None` when
  `stride = 1`; the nullable field is modelled as two constructors
  (`invResSplit` for the `left is None` case, `invResFull` otherwise), which is
  the same tagged union resolved once at construction time.
* `outShape` gives the shape semantics of one forward pass: for every primitive
  it implements the standard PyTorch shape formula together with the conditions
  under which the primitive raises (channel mismatch, kernel larger than the
  padded input, and so on); `none` models a raised shape error.  The
  `channels // groups` reshape inside `channel_shuffle` is well defined exactly
  when the channel count is divisible by the group count, which is the
  element-count check of `Tensor.reshape` for non-empty tensors.
* `channel_shuffle` itself is also embedded at the data level: a `Tensor` is a
  shape together with a flat row-major data function, `Tensor.reshape`
  reinterprets the flat data under a new shape and `Tensor.transpose12`
  materialises the swap of axes 1 and 2 of a rank-5 tensor, mirroring
  `x.reshape(b, g, c // g, h, w).transpose(1, 2).reshape(b, c, h, w)`.
-/

/-- One layer of the network: the `torch.nn` primitives used by the source,
sequential composition, and the two construction-time variants of
`InvertedResidualBlock.forward` (left branch absent or present). -/
inductive Layer where
  | conv2d (inC outC kernelSize padding stride groups : Nat) (bias : Bool)
  | batchNorm2d (features : Nat)
  | relu
  | maxPool2d (kernelSize stride padding : Nat)
  | adaptiveAvgPool2d (outputSize : Nat)
  | flatten
  | linear (inFeatures outFeatures : Nat)
  | idLayer
  | comp (first second : Layer)
  | invResSplit (right : Layer)
  | invResFull (left right : Layer)
deriving DecidableEq

/-- `nn.Sequential(*layers)`: apply the listed layers in order. -/
def seqL (layers : List Layer) : Layer :=
  layers.foldr Layer.comp Layer.idLayer

/-- `ConvBlock` of the source: Conv2d (no bias) + BatchNorm2d + optional ReLU.
The source defaults are `padding=0`, `stride=1`, `use_relu=True`; call sites
below always pass all arguments explicitly. -/
def ConvBlock (in_channels out_channels kernel_size padding stride : Nat)
    (use_relu : Bool) : Layer :=
  seqL ([Layer.conv2d in_channels out_channels kernel_size padding stride 1 false,
         Layer.batchNorm2d out_channels] ++
        (if use_relu then [Layer.relu] else []))

/-- `DSConvBlock` of the source: depthwise Conv2d (groups = in_channels, no
bias) + BatchNorm2d + pointwise 1x1 Conv2d (no bias) + BatchNorm2d + optional
ReLU. -/
def DSConvBlock (in_channels out_channels kernel_size padding stride : Nat)
    (use_relu : Bool) : Layer :=
  seqL ([Layer.conv2d in_channels in_channels kernel_size padding stride
           in_channels false,
         Layer.batchNorm2d in_channels,
         Layer.conv2d in_channels out_channels 1 0 1 1 false,
         Layer.batchNorm2d out_channels] ++
        (if use_relu then [Layer.relu] else []))

/-- `InvertedResidualBlock` of the source.  `branch_channels = out_channels // 2`;
for `stride > 1` the left branch is a `DSConvBlock` and the right branch sees the
full input, otherwise the left branch is `None` (constructor `invResSplit`) and
the right branch sees the second chunk of the input.  The source default is
`stride=1`; call sites pass it explicitly. -/
def InvertedResidualBlock (in_channels out_channels stride : Nat) : Layer :=
  let branch_channels := out_channels / 2
  let right := seqL [
    ConvBlock (if stride > 1 then in_channels else branch_channels)
      branch_channels 1 0 1 true,
    DSConvBlock branch_channels branch_channels 3 1 stride true]
  if stride > 1 then
    Layer.invResFull (DSConvBlock in_channels branch_channels 3 1 stride true) right
  else
    Layer.invResSplit right

/-- `make_layer` of the source: one `InvertedResidualBlock(in, out, stride)`
followed by `depth - 1` blocks `InvertedResidualBlock(out, out)` (stride 1),
wrapped in `nn.Sequential`.  The source default is `stride=2`; call sites pass
it explicitly.  `range(1, depth)` has `depth - 1` elements (none when
`depth <= 1`), which is `List.replicate (depth - 1)` with truncated
subtraction. -/
def make_layer (in_channels out_channels depth stride : Nat) : Layer :=
  seqL ([InvertedResidualBlock in_channels out_channels stride] ++
        List.replicate (depth - 1) (InvertedResidualBlock out_channels out_channels 1))

/-- The `features` sub-network of `ShuffleNetV2.__init__`: head (ConvBlock +
MaxPool2d), three stages, 1x1 tail ConvBlock.  All call sites pass full-length
lists, so list indexing `block_channels[i]` is modelled with `List.getD`. -/
def ShuffleNetV2_features (in_channels : Nat)
    (block_depth block_channels : List Nat) : Layer :=
  seqL [
    seqL [ConvBlock in_channels (block_channels.getD 0 0) 3 1 2 true,
          Layer.maxPool2d 3 2 1],
    make_layer (block_channels.getD 0 0) (block_channels.getD 1 0)
      (block_depth.getD 0 0) 2,
    make_layer (block_channels.getD 1 0) (block_channels.getD 2 0)
      (block_depth.getD 1 0) 2,
    make_layer (block_channels.getD 2 0) (block_channels.getD 3 0)
      (block_depth.getD 2 0) 2,
    ConvBlock (block_channels.getD 3 0) (block_channels.getD 4 0) 1 0 1 true]

/-- The `classifier` sub-network of `ShuffleNetV2.__init__`: AdaptiveAvgPool2d(1),
Flatten, Linear (with bias) to `num_classes`. -/
def ShuffleNetV2_classifier (num_classes : Nat) (block_channels : List Nat) : Layer :=
  seqL [Layer.adaptiveAvgPool2d 1, Layer.flatten,
        Layer.linear (block_channels.getD 4 0) num_classes]

/-- `ShuffleNetV2`: the sequential composition of `features` and `classifier`. -/
def ShuffleNetV2 (in_channels num_classes : Nat)
    (block_depth block_channels : List Nat) : Layer :=
  seqL [ShuffleNetV2_features in_channels block_depth block_channels,
        ShuffleNetV2_classifier num_classes block_channels]

/-- Preset `shufflenetv2_x0_5`. -/
def shufflenetv2_x0_5 (in_channels num_classes : Nat) : Layer :=
  ShuffleNetV2 in_channels num_classes [4, 8, 4] [24, 48, 96, 192, 1024]

/-- Preset `shufflenetv2_x1_0`. -/
def shufflenetv2_x1_0 (in_channels num_classes : Nat) : Layer :=
  ShuffleNetV2 in_channels num_classes [4, 8, 4] [24, 116, 232, 464, 1024]

/-- Preset `shufflenetv2_x1_5`. -/
def shufflenetv2_x1_5 (in_channels num_classes : Nat) : Layer :=
  ShuffleNetV2 in_channels num_classes [4, 8, 4] [24, 176, 352, 704, 1024]

/-- Preset `shufflenetv2_x2_0`. -/
def shufflenetv2_x2_0 (in_channels num_classes : Nat) : Layer :=
  ShuffleNetV2 in_channels num_classes [4, 8, 4] [24, 244, 488, 976, 2048]

/-- Output spatial extent of a convolution / pooling window:
`(size + 2 * padding - kernel) / stride + 1` with floor division
(`ceil_mode=False`). -/
def convOut (size kernelSize padding stride : Nat) : Nat :=
  (size + 2 * padding - kernelSize) / stride + 1

/-- Shape semantics of one forward pass.  Shapes are lists of extents
`[batch, channels, height, width]` (after `Flatten`: `[batch, features]`).
`none` models the shape error the corresponding PyTorch primitive raises.  In
`invResSplit`, `torch.chunk(2, dim=1)` gives a first chunk of `ceil(c / 2)`
channels and a second chunk with the rest; after concatenation the source
applies `channel_shuffle(x, 2)`, whose reshape is well defined exactly when the
channel count is even. -/
def outShape : Layer → List Nat → Option (List Nat)
  | .conv2d inC outC k p s g _, b :: c :: h :: w :: [] =>
      if c = inC ∧ 1 ≤ g ∧ inC % g = 0 ∧ outC % g = 0 ∧ 1 ≤ s ∧ 1 ≤ k ∧
         k ≤ h + 2 * p ∧ k ≤ w + 2 * p then
        some [b, outC, convOut h k p s, convOut w k p s]
      else none
  | .batchNorm2d f, b :: c :: h :: w :: [] =>
      if c = f then some [b, c, h, w] else none
  | .relu, s => some s
  | .maxPool2d k st p, b :: c :: h :: w :: [] =>
      if 1 ≤ st ∧ 1 ≤ k ∧ 2 * p ≤ k ∧ k ≤ h + 2 * p ∧ k ≤ w + 2 * p then
        some [b, c, convOut h k p st, convOut w k p st]
      else none
  | .adaptiveAvgPool2d o, b :: c :: h :: w :: [] =>
      if 1 ≤ o ∧ 1 ≤ h ∧ 1 ≤ w then some [b, c, o, o] else none
  | .flatten, b :: rest => some [b, rest.prod]
  | .linear inF outF, b :: f :: [] =>
      if f = inF then some [b, outF] else none
  | .idLayer, s => some s
  | .comp a bL, s =>
      (match outShape a s with
       | some s' => outShape bL s'
       | none => none)
  | .invResSplit right, b :: c :: h :: w :: [] =>
      let lc := (c + 1) / 2
      let rc := c - lc
      (match outShape right (b :: rc :: h :: w :: []) with
       | some (b' :: c' :: h' :: w' :: []) =>
           if b' = b ∧ h' = h ∧ w' = w ∧ (lc + c') % 2 = 0 then
             some [b, lc + c', h, w]
           else none
       | _ => none)
  | .invResFull left right, s =>
      (match outShape left s, outShape right s with
       | some (b1 :: c1 :: h1 :: w1 :: []), some (b2 :: c2 :: h2 :: w2 :: []) =>
           if b1 = b2 ∧ h1 = h2 ∧ w1 = w2 ∧ (c1 + c2) % 2 = 0 then
             some [b1, c1 + c2, h1, w1]
           else none
       | _, _ => none)
  | _, _ => none

/-- Number of direct children of a sequential chain (the length of the
`nn.Sequential` that `seqL` encodes). -/
def seqLength : Layer → Nat
  | .comp _ rest => 1 + seqLength rest
  | .idLayer => 0
  | _ => 1

/-- Modelled from the spec: the construction-time contract of the external
convolution primitive (spec sections 6 and 7), whose constructor code is not
part of this repository.  The convolution constructor rejects a non-positive
group count and channel counts not divisible by the group count; every other
module used by the source constructs unconditionally.  A module tree is
constructible exactly when every convolution in it satisfies this contract. -/
def constructOk : Layer → Bool
  | .conv2d inC outC _ _ _ g _ =>
      decide (1 ≤ g) && decide (inC % g = 0) && decide (outC % g = 0)
  | .comp a b => constructOk a && constructOk b
  | .invResSplit right => constructOk right
  | .invResFull left right => constructOk left && constructOk right
  | _ => true

/-- A tensor: a shape and flat row-major data. -/
structure Tensor where
  shape : List Nat
  data : Nat → Int

/-- Row-major flat index of a rank-5 tensor with trailing extents
`s1, s2, s3, s4`. -/
def idx5 (s1 s2 s3 s4 i0 i1 i2 i3 i4 : Nat) : Nat :=
  (((i0 * s1 + i1) * s2 + i2) * s3 + i3) * s4 + i4

/-- `torch.reshape` on a contiguous tensor: same flat data, new shape. -/
def Tensor.reshape (t : Tensor) (s : List Nat) : Tensor :=
  { shape := s, data := t.data }

/-- `transpose(1, 2)` of a rank-5 tensor, materialised in row-major order:
the element of the result at multi-index `(i0, i1, i2, i3, i4)` is the element
of `t` at `(i0, i2, i1, i3, i4)`. -/
def Tensor.transpose12 (t : Tensor) : Tensor :=
  match t.shape with
  | [d0, d1, d2, d3, d4] =>
      { shape := [d0, d2, d1, d3, d4]
        data := fun n =>
          let i4 := n % d4
          let i3 := n / d4 % d3
          let i2 := n / d4 / d3 % d1
          let i1 := n / d4 / d3 / d1 % d2
          let i0 := n / d4 / d3 / d1 / d2
          t.data (idx5 d1 d2 d3 d4 i0 i2 i1 i3 i4) }
  | _ => t

/-- `channel_shuffle` of the source:
`x.reshape(b, groups, c // groups, h, w).transpose(1, 2).reshape(b, c, h, w)`. -/
def channel_shuffle (x : Tensor) (groups : Nat) : Tensor :=
  match x.shape with
  | [batch_size, channels, height, width] =>
      ((x.reshape [batch_size, groups, channels / groups, height, width]).transpose12).reshape
        [batch_size, channels, height, width]
  | _ => x

/-- Element of a rank-4 tensor at `(b, c, h, w)` via row-major indexing. -/
def Tensor.at4 (t : Tensor) (b c h w : Nat) : Int :=
  match t.shape with
  | [_, cC, hH, wW] => t.data (((b * cC + c) * hH + h) * wW + w)
  | _ => 0

/-- Concrete `1 x 6 x 1 x 1` tensor whose channel contents are `0..5`. -/
def tensor6 : Tensor :=
  { shape := [1, 6, 1, 1], data := fun n => (n : Int) }

theorem outShape_comp (a bL : Layer) (s s' t : List Nat)
    (ha : outShape a s = some s') (hb : outShape bL s' = some t) :
    outShape (Layer.comp a bL) s = some t := by
  simp only [outShape, ha, hb]

theorem outShape_conv2d (inC outC k p s g : Nat) (bias : Bool) (b c h w : Nat)
    (h1 : c = inC) (h2 : 1 ≤ g) (h3 : inC % g = 0) (h4 : outC % g = 0)
    (h5 : 1 ≤ s) (h6 : 1 ≤ k) (h7 : k ≤ h + 2 * p) (h8 : k ≤ w + 2 * p) :
    outShape (Layer.conv2d inC outC k p s g bias) [b, c, h, w] =
      some [b, outC, convOut h k p s, convOut w k p s] := by
  simp only [outShape]
  rw [if_pos ⟨h1, h2, h3, h4, h5, h6, h7, h8⟩]

theorem outShape_batchNorm (f b c h w : Nat) (h1 : c = f) :
    outShape (Layer.batchNorm2d f) [b, c, h, w] = some [b, c, h, w] := by
  simp only [outShape]
  rw [if_pos h1]

theorem convOut_pos (n k p s : Nat) : 1 ≤ convOut n k p s :=
  Nat.le_add_left 1 _

theorem convOut_one (n : Nat) (hn : 1 ≤ n) : convOut n 1 0 1 = n := by
  unfold convOut
  omega

theorem ConvBlock_shape (inC outC k p s : Nat) (r : Bool) (b c h w : Nat)
    (h1 : c = inC) (hs : 1 ≤ s) (hk : 1 ≤ k)
    (hh : k ≤ h + 2 * p) (hw : k ≤ w + 2 * p) :
    outShape (ConvBlock inC outC k p s r) [b, c, h, w] =
      some [b, outC, convOut h k p s, convOut w k p s] := by
  have hconv := outShape_conv2d inC outC k p s 1 false b c h w h1 (by omega)
      (by omega) (by omega) hs hk hh hw
  have hbn := outShape_batchNorm outC b outC (convOut h k p s) (convOut w k p s) rfl
  cases r
  · exact outShape_comp _ _ _ _ _ hconv (outShape_comp _ _ _ _ _ hbn rfl)
  · exact outShape_comp _ _ _ _ _ hconv (outShape_comp _ _ _ _ _ hbn
      (outShape_comp _ _ _ _ _ rfl rfl))

theorem DSConvBlock_shape (inC outC k p s : Nat) (r : Bool) (b c h w : Nat)
    (h1 : c = inC) (hin : 1 ≤ inC) (hs : 1 ≤ s) (hk : 1 ≤ k)
    (hh : k ≤ h + 2 * p) (hw : k ≤ w + 2 * p) :
    outShape (DSConvBlock inC outC k p s r) [b, c, h, w] =
      some [b, outC, convOut h k p s, convOut w k p s] := by
  have hdw := outShape_conv2d inC inC k p s inC false b c h w h1 hin
      (Nat.mod_self inC) (Nat.mod_self inC) hs hk hh hw
  have hbn1 := outShape_batchNorm inC b inC (convOut h k p s) (convOut w k p s) rfl
  have hph := convOut_pos h k p s
  have hpw := convOut_pos w k p s
  have hptw := outShape_conv2d inC outC 1 0 1 1 false b inC
      (convOut h k p s) (convOut w k p s) rfl (by omega) (by omega) (by omega)
      (by omega) (by omega) (by omega) (by omega)
  rw [convOut_one (convOut h k p s) hph, convOut_one (convOut w k p s) hpw] at hptw
  have hbn2 := outShape_batchNorm outC b outC (convOut h k p s) (convOut w k p s) rfl
  cases r
  · exact outShape_comp _ _ _ _ _ hdw (outShape_comp _ _ _ _ _ hbn1
      (outShape_comp _ _ _ _ _ hptw (outShape_comp _ _ _ _ _ hbn2 rfl)))
  · exact outShape_comp _ _ _ _ _ hdw (outShape_comp _ _ _ _ _ hbn1
      (outShape_comp _ _ _ _ _ hptw (outShape_comp _ _ _ _ _ hbn2
      (outShape_comp _ _ _ _ _ rfl rfl))))

theorem outShape_invResSplit (right : Layer) (b c h w c' : Nat)
    (hr : outShape right [b, c - (c + 1) / 2, h, w] = some [b, c', h, w])
    (hpar : ((c + 1) / 2 + c') % 2 = 0) :
    outShape (Layer.invResSplit right) [b, c, h, w] =
      some [b, (c + 1) / 2 + c', h, w] := by
  simp only [outShape, hr]
  simp [hpar]

theorem outShape_invResFull (left right : Layer) (s : List Nat) (b c1 c2 h w : Nat)
    (hl : outShape left s = some [b, c1, h, w])
    (hr : outShape right s = some [b, c2, h, w])
    (hpar : (c1 + c2) % 2 = 0) :
    outShape (Layer.invResFull left right) s = some [b, c1 + c2, h, w] := by
  simp only [outShape, hl, hr]
  simp [hpar]

theorem irb_one_shape (cC b h w : Nat) (he : cC % 2 = 0) (hc : 2 ≤ cC)
    (hh : 1 ≤ h) (hw : 1 ≤ w) :
    outShape (InvertedResidualBlock cC cC 1) [b, cC, h, w] = some [b, cC, h, w] := by
  have hcb := ConvBlock_shape (cC / 2) (cC / 2) 1 0 1 true b (cC - (cC + 1) / 2) h w
      (by omega) (by omega) (by omega) (by omega) (by omega)
  rw [convOut_one h hh, convOut_one w hw] at hcb
  have hds := DSConvBlock_shape (cC / 2) (cC / 2) 3 1 1 true b (cC / 2) h w rfl
      (by omega) (by omega) (by omega) (by omega) (by omega)
  have e3h : convOut h 3 1 1 = h := by unfold convOut; omega
  have e3w : convOut w 3 1 1 = w := by unfold convOut; omega
  rw [e3h, e3w] at hds
  have hright : outShape (seqL [ConvBlock (cC / 2) (cC / 2) 1 0 1 true,
      DSConvBlock (cC / 2) (cC / 2) 3 1 1 true]) [b, cC - (cC + 1) / 2, h, w] =
      some [b, cC / 2, h, w] :=
    outShape_comp _ _ _ _ _ hcb (outShape_comp _ _ _ _ _ hds rfl)
  have hblock : InvertedResidualBlock cC cC 1 = Layer.invResSplit
      (seqL [ConvBlock (cC / 2) (cC / 2) 1 0 1 true,
             DSConvBlock (cC / 2) (cC / 2) 3 1 1 true]) := rfl
  rw [hblock]
  have hres := outShape_invResSplit _ b cC h w (cC / 2) hright (by omega)
  rwa [(by omega : (cC + 1) / 2 + cC / 2 = cC)] at hres

theorem irb_down_shape (cin cout s b h w : Nat) (hs : 2 ≤ s) (hcin : 1 ≤ cin)
    (hcout : 2 ≤ cout) (hh : 1 ≤ h) (hw : 1 ≤ w) :
    outShape (InvertedResidualBlock cin cout s) [b, cin, h, w] =
      some [b, 2 * (cout / 2), (h - 1) / s + 1, (w - 1) / s + 1] := by
  have eh : convOut h 3 1 s = (h - 1) / s + 1 := by
    unfold convOut
    rw [(by omega : h + 2 * 1 - 3 = h - 1)]
  have ew : convOut w 3 1 s = (w - 1) / s + 1 := by
    unfold convOut
    rw [(by omega : w + 2 * 1 - 3 = w - 1)]
  have hleft := DSConvBlock_shape cin (cout / 2) 3 1 s true b cin h w rfl hcin
      (by omega) (by omega) (by omega) (by omega)
  rw [eh, ew] at hleft
  have hcb := ConvBlock_shape cin (cout / 2) 1 0 1 true b cin h w rfl
      (by omega) (by omega) (by omega) (by omega)
  rw [convOut_one h hh, convOut_one w hw] at hcb
  have hds := DSConvBlock_shape (cout / 2) (cout / 2) 3 1 s true b (cout / 2) h w rfl
      (by omega) (by omega) (by omega) (by omega) (by omega)
  rw [eh, ew] at hds
  have hright : outShape (seqL [ConvBlock cin (cout / 2) 1 0 1 true,
      DSConvBlock (cout / 2) (cout / 2) 3 1 s true]) [b, cin, h, w] =
      some [b, cout / 2, (h - 1) / s + 1, (w - 1) / s + 1] :=
    outShape_comp _ _ _ _ _ hcb (outShape_comp _ _ _ _ _ hds rfl)
  have hblock : InvertedResidualBlock cin cout s = Layer.invResFull
      (DSConvBlock cin (cout / 2) 3 1 s true)
      (seqL [ConvBlock cin (cout / 2) 1 0 1 true,
             DSConvBlock (cout / 2) (cout / 2) 3 1 s true]) := by
    unfold InvertedResidualBlock
    rw [if_pos (by omega : s > 1), if_pos (by omega : s > 1)]
  rw [hblock]
  have hres := outShape_invResFull _ _ [b, cin, h, w] b (cout / 2) (cout / 2)
      ((h - 1) / s + 1) ((w - 1) / s + 1) hleft hright (by omega)
  rwa [(by omega : cout / 2 + cout / 2 = 2 * (cout / 2))] at hres

theorem outShape_replicate (n : Nat) (L : Layer) (s : List Nat)
    (hL : outShape L s = some s) :
    outShape (List.foldr Layer.comp Layer.idLayer (List.replicate n L)) s = some s := by
  induction n with
  | zero => rfl
  | succ m ih =>
      rw [List.replicate_succ, List.foldr_cons]
      exact outShape_comp _ _ _ _ _ hL ih

theorem make_layer_shape (cin cout d b h w : Nat) (hcin : 1 ≤ cin) (hcout : 2 ≤ cout)
    (he : cout % 2 = 0) (hh : 1 ≤ h) (hw : 1 ≤ w) :
    outShape (make_layer cin cout d 2) [b, cin, h, w] =
      some [b, cout, (h - 1) / 2 + 1, (w - 1) / 2 + 1] := by
  have hfirst := irb_down_shape cin cout 2 b h w (le_refl 2) hcin hcout hh hw
  rw [(by omega : 2 * (cout / 2) = cout)] at hfirst
  have hrep := outShape_replicate (d - 1) (InvertedResidualBlock cout cout 1)
      [b, cout, (h - 1) / 2 + 1, (w - 1) / 2 + 1]
      (irb_one_shape cout b ((h - 1) / 2 + 1) ((w - 1) / 2 + 1) he hcout
        (by omega) (by omega))
  exact outShape_comp _ _ _ _ _ hfirst hrep

theorem outShape_maxPool (k st p b c h w : Nat) (hst : 1 ≤ st) (hk : 1 ≤ k)
    (hp : 2 * p ≤ k) (hh : k ≤ h + 2 * p) (hw : k ≤ w + 2 * p) :
    outShape (Layer.maxPool2d k st p) [b, c, h, w] =
      some [b, c, convOut h k p st, convOut w k p st] := by
  simp only [outShape]
  rw [if_pos ⟨hst, hk, hp, hh, hw⟩]

theorem ShuffleNetV2_features_shape (ic c0 c1 c2 c3 c4 d1 d2 d3 b k : Nat)
    (hk : 1 ≤ k) (hc0 : 1 ≤ c0)
    (hc1 : 2 ≤ c1) (he1 : c1 % 2 = 0) (hc2 : 2 ≤ c2) (he2 : c2 % 2 = 0)
    (hc3 : 2 ≤ c3) (he3 : c3 % 2 = 0) :
    outShape (ShuffleNetV2_features ic [d1, d2, d3] [c0, c1, c2, c3, c4])
      [b, ic, 32 * k, 32 * k] = some [b, c4, k, k] := by
  have hhead := ConvBlock_shape ic c0 3 1 2 true b ic (32 * k) (32 * k) rfl
      (by omega) (by omega) (by omega) (by omega)
  have e1 : convOut (32 * k) 3 1 2 = 16 * k := by unfold convOut; omega
  rw [e1] at hhead
  have hpool := outShape_maxPool 3 2 1 b c0 (16 * k) (16 * k)
      (by omega) (by omega) (by omega) (by omega) (by omega)
  have e2 : convOut (16 * k) 3 1 2 = 8 * k := by unfold convOut; omega
  rw [e2] at hpool
  have hheadSeq : outShape (seqL [ConvBlock ic c0 3 1 2 true, Layer.maxPool2d 3 2 1])
      [b, ic, 32 * k, 32 * k] = some [b, c0, 8 * k, 8 * k] :=
    outShape_comp _ _ _ _ _ hhead (outShape_comp _ _ _ _ _ hpool rfl)
  have hst1 := make_layer_shape c0 c1 d1 b (8 * k) (8 * k) hc0 hc1 he1
      (by omega) (by omega)
  rw [(by omega : (8 * k - 1) / 2 + 1 = 4 * k)] at hst1
  have hst2 := make_layer_shape c1 c2 d2 b (4 * k) (4 * k) (by omega) hc2 he2
      (by omega) (by omega)
  rw [(by omega : (4 * k - 1) / 2 + 1 = 2 * k)] at hst2
  have hst3 := make_layer_shape c2 c3 d3 b (2 * k) (2 * k) (by omega) hc3 he3
      (by omega) (by omega)
  rw [(by omega : (2 * k - 1) / 2 + 1 = k)] at hst3
  have htail := ConvBlock_shape c3 c4 1 0 1 true b c3 k k rfl
      (by omega) (by omega) (by omega) (by omega)
  rw [convOut_one k hk] at htail
  exact outShape_comp _ _ _ _ _ hheadSeq (outShape_comp _ _ _ _ _ hst1
    (outShape_comp _ _ _ _ _ hst2 (outShape_comp _ _ _ _ _ hst3
    (outShape_comp _ _ _ _ _ htail rfl))))

theorem ShuffleNetV2_classifier_shape (nc c0 c1 c2 c3 c4 b k : Nat) (hk : 1 ≤ k) :
    outShape (ShuffleNetV2_classifier nc [c0, c1, c2, c3, c4]) [b, c4, k, k] =
      some [b, nc] := by
  have hpool : outShape (Layer.adaptiveAvgPool2d 1) [b, c4, k, k] = some [b, c4, 1, 1] := by
    simp only [outShape]
    rw [if_pos ⟨by omega, by omega, by omega⟩]
  have hflat : outShape Layer.flatten [b, c4, 1, 1] = some [b, c4] := by
    simp [outShape]
  have hlin : outShape (Layer.linear c4 nc) [b, c4] = some [b, nc] := by
    simp [outShape]
  exact outShape_comp _ _ _ _ _ hpool (outShape_comp _ _ _ _ _ hflat
    (outShape_comp _ _ _ _ _ hlin rfl))

theorem ShuffleNetV2_shape (ic nc c0 c1 c2 c3 c4 d1 d2 d3 b k : Nat)
    (hk : 1 ≤ k) (hc0 : 1 ≤ c0)
    (hc1 : 2 ≤ c1) (he1 : c1 % 2 = 0) (hc2 : 2 ≤ c2) (he2 : c2 % 2 = 0)
    (hc3 : 2 ≤ c3) (he3 : c3 % 2 = 0) :
    outShape (ShuffleNetV2 ic nc [d1, d2, d3] [c0, c1, c2, c3, c4])
      [b, ic, 32 * k, 32 * k] = some [b, nc] :=
  outShape_comp _ _ _ _ _
    (ShuffleNetV2_features_shape ic c0 c1 c2 c3 c4 d1 d2 d3 b k hk hc0
      hc1 he1 hc2 he2 hc3 he3)
    (outShape_comp _ _ _ _ _
      (ShuffleNetV2_classifier_shape nc c0 c1 c2 c3 c4 b k hk) rfl)

theorem seqLength_seqL (ls : List Layer) : seqLength (seqL ls) = ls.length := by
  induction ls with
  | nil => rfl
  | cons x xs ih =>
      simp only [seqL, List.foldr_cons, seqLength, List.length_cons]
      rw [show seqL xs = List.foldr Layer.comp Layer.idLayer xs from rfl] at ih
      omega

theorem flat_mod (m e r : Nat) (hr : r < e) : (m * e + r) % e = r := by
  rw [Nat.add_comm, Nat.add_mul_mod_self_right, Nat.mod_eq_of_lt hr]

theorem flat_div (m e r : Nat) (hr : r < e) : (m * e + r) / e = m := by
  have he : 0 < e := Nat.lt_of_le_of_lt (Nat.zero_le r) hr
  rw [Nat.add_comm, Nat.add_mul_div_right _ _ he, Nat.div_eq_of_lt hr, Nat.zero_add]

theorem channel_shuffle_shape (x : Tensor) (bB cC hH wW g : Nat)
    (hs : x.shape = [bB, cC, hH, wW]) :
    (channel_shuffle x g).shape = [bB, cC, hH, wW] := by
  simp [channel_shuffle, hs, Tensor.reshape, Tensor.transpose12]

theorem at4_chan_congr (t : Tensor) (b c1 c2 h w : Nat) (hcc : c1 = c2) :
    t.at4 b c1 h w = t.at4 b c2 h w := by
  rw [hcc]

theorem data_idx_congr (f : Nat → Int) (a1 a2 e1 i1 e2 i2 : Nat) (ha : a1 = a2) :
    f ((a1 * e1 + i1) * e2 + i2) = f ((a2 * e1 + i1) * e2 + i2) := by
  rw [ha]

theorem shuffle6_at (x : Tensor) (bB hH wW g : Nat) (hs : x.shape = [bB, 6, hH, wW])
    (hg : g = 2 ∨ g = 3) (b c h w : Nat) (hc : c < 6) (hh : h < hH) (hw : w < wW) :
    (channel_shuffle x g).at4 b c h w = x.at4 b (c % g * (6 / g) + c / g) h w := by
  rcases hg with hg | hg <;> subst hg <;>
    simp only [channel_shuffle, hs, Tensor.reshape, Tensor.transpose12, Tensor.at4,
      idx5] <;>
    rw [flat_mod _ _ _ hw, flat_div _ _ _ hw, flat_mod _ _ _ hh, flat_div _ _ _ hh] <;>
    exact data_idx_congr x.data _ _ _ _ _ _ (by omega)

/-- Claim C1: a stride-1 `InvertedResidualBlock` with `in = out = C` splits the
input channels at the midpoint (the left half is passed to the concatenation
untransformed, the right half goes through `ConvBlock(C/2, C/2, 1x1)` and then
`DSConvBlock(C/2, C/2, 3x3, padding 1, stride 1)`), concatenates left first and
applies channel shuffle with group count 2, and for even `C` the output has
exactly `C` channels and the input's spatial size. -/
theorem stride1_unit_structure_and_shape (cC b h w : Nat) (he : cC % 2 = 0)
    (hc : 2 ≤ cC) (hh : 1 ≤ h) (hw : 1 ≤ w) :
    InvertedResidualBlock cC cC 1 = Layer.invResSplit
      (seqL [ConvBlock (cC / 2) (cC / 2) 1 0 1 true,
             DSConvBlock (cC / 2) (cC / 2) 3 1 1 true]) ∧
    outShape (InvertedResidualBlock cC cC 1) [b, cC, h, w] = some [b, cC, h, w] :=
  ⟨rfl, irb_one_shape cC b h w he hc hh hw⟩

/-- Witness for claim C1 at `C = 64` on a `1 x 64 x 28 x 28` input. -/
theorem stride1_unit_structure_and_shape_witness :
    64 % 2 = 0 ∧
    outShape (InvertedResidualBlock 64 64 1) [1, 64, 28, 28] = some [1, 64, 28, 28] :=
  ⟨rfl, (stride1_unit_structure_and_shape 64 1 28 28 rfl (by decide) (by decide)
    (by decide)).2⟩

/-- Claim C2: a stride-`s` `InvertedResidualBlock` with `s > 1` feeds the full
input to both branches (left `DSConvBlock(Cin, Cout/2, 3x3, padding 1, stride s)`,
right `ConvBlock(Cin, Cout/2, 1x1)` then
`DSConvBlock(Cout/2, Cout/2, 3x3, padding 1, stride s)`), concatenates and
applies channel shuffle with group count 2; for even `Cout` the output has
`Cout` channels and each spatial extent becomes `(n - 1) / s + 1`, the standard
convolution formula for kernel 3, padding 1, stride `s`. -/
theorem strided_unit_structure_and_shape (cin cout s b h w : Nat) (hs : 2 ≤ s)
    (he : cout % 2 = 0) (hcout : 2 ≤ cout) (hcin : 1 ≤ cin)
    (hh : 1 ≤ h) (hw : 1 ≤ w) :
    InvertedResidualBlock cin cout s = Layer.invResFull
      (DSConvBlock cin (cout / 2) 3 1 s true)
      (seqL [ConvBlock cin (cout / 2) 1 0 1 true,
             DSConvBlock (cout / 2) (cout / 2) 3 1 s true]) ∧
    outShape (InvertedResidualBlock cin cout s) [b, cin, h, w] =
      some [b, cout, (h - 1) / s + 1, (w - 1) / s + 1] := by
  constructor
  · unfold InvertedResidualBlock
    rw [if_pos (by omega : s > 1), if_pos (by omega : s > 1)]
  · have hd := irb_down_shape cin cout s b h w hs hcin hcout hh hw
    rwa [(by omega : 2 * (cout / 2) = cout)] at hd

/-- Witness for claim C2 at `Cin = 24`, `Cout = 116`, `s = 2` on a
`1 x 24 x 56 x 56` input. -/
theorem strided_unit_structure_and_shape_witness :
    2 ≤ 2 ∧ 116 % 2 = 0 ∧
    outShape (InvertedResidualBlock 24 116 2) [1, 24, 56, 56] =
      some [1, 116, 28, 28] :=
  ⟨by decide, rfl,
   (strided_unit_structure_and_shape 24 116 2 1 56 56 (by decide) rfl (by decide)
     (by decide) (by decide) (by decide)).2⟩

/-- Claim C10: a stride-`s` (`s > 1`) `InvertedResidualBlock` is constructed for
any `Cout` (odd included) and outputs `2 * (Cout / 2)` channels: exactly `Cout`
for even `Cout`, silently `Cout - 1` for odd `Cout`. -/
theorem strided_unit_floored_channels (cin cout s b h w : Nat) (hs : 2 ≤ s)
    (hcin : 1 ≤ cin) (hcout : 2 ≤ cout) (hh : 1 ≤ h) (hw : 1 ≤ w) :
    outShape (InvertedResidualBlock cin cout s) [b, cin, h, w] =
      some [b, 2 * (cout / 2), (h - 1) / s + 1, (w - 1) / s + 1] ∧
    (cout % 2 = 0 → 2 * (cout / 2) = cout) ∧
    (cout % 2 = 1 → 2 * (cout / 2) = cout - 1) :=
  ⟨irb_down_shape cin cout s b h w hs hcin hcout hh hw, by omega, by omega⟩

/-- Witness for claim C10 at odd `Cout = 7`: the output has 6 channels. -/
theorem strided_unit_floored_channels_witness :
    2 ≤ 2 ∧ 7 % 2 = 1 ∧
    outShape (InvertedResidualBlock 4 7 2) [1, 4, 5, 5] = some [1, 6, 3, 3] :=
  ⟨by decide, rfl,
   (strided_unit_floored_channels 4 7 2 1 5 5 (by decide) (by decide) (by decide)
     (by decide) (by decide)).1⟩

/-- Claim C4: `make_layer(Cin, Cout, d)` is the ordered sequence of one
`InvertedResidualBlock(Cin, Cout, stride 2)` followed by `d - 1` blocks
`InvertedResidualBlock(Cout, Cout, stride 1)`; for `d >= 1` it has exactly `d`
units.  In particular `make_layer(24, 116, 4)` has 4 units, its first unit maps
`24` channels at spatial size `2h x 2w` to `116` channels at `h x w` (halving),
its stride-1 units preserve `116` channels and the spatial size, and the whole
stage maps `[b, 24, 2h, 2w]` to `[b, 116, h, w]`. -/
theorem make_layer_stage_structure_and_shape (cin cout d b h w : Nat)
    (hd : 1 ≤ d) (hh : 1 ≤ h) (hw : 1 ≤ w) :
    make_layer cin cout d 2 =
      seqL (InvertedResidualBlock cin cout 2 ::
        List.replicate (d - 1) (InvertedResidualBlock cout cout 1)) ∧
    seqLength (make_layer cin cout d 2) = d ∧
    outShape (InvertedResidualBlock 24 116 2) [b, 24, 2 * h, 2 * w] =
      some [b, 116, h, w] ∧
    outShape (InvertedResidualBlock 116 116 1) [b, 116, h, w] =
      some [b, 116, h, w] ∧
    outShape (make_layer 24 116 4 2) [b, 24, 2 * h, 2 * w] = some [b, 116, h, w] := by
  refine ⟨rfl, ?_, ?_, ?_, ?_⟩
  · have hlen := seqLength_seqL (InvertedResidualBlock cin cout 2 ::
      List.replicate (d - 1) (InvertedResidualBlock cout cout 1))
    have hlen2 : seqLength (make_layer cin cout d 2) =
        (InvertedResidualBlock cin cout 2 ::
          List.replicate (d - 1) (InvertedResidualBlock cout cout 1)).length := hlen
    rw [hlen2]
    simp only [List.length_cons, List.length_replicate]
    omega
  · have hu := irb_down_shape 24 116 2 b (2 * h) (2 * w) (by omega) (by omega)
      (by omega) (by omega) (by omega)
    rwa [(by omega : 2 * (116 / 2) = 116), (by omega : (2 * h - 1) / 2 + 1 = h),
      (by omega : (2 * w - 1) / 2 + 1 = w)] at hu
  · exact irb_one_shape 116 b h w rfl (by omega) hh hw
  · have hstage := make_layer_shape 24 116 4 b (2 * h) (2 * w) (by omega) (by omega)
      rfl (by omega) (by omega)
    rwa [(by omega : (2 * h - 1) / 2 + 1 = h), (by omega : (2 * w - 1) / 2 + 1 = w)]
      at hstage

/-- Witness for claim C4 at `d = 4` on a `1 x 24 x 56 x 56` input. -/
theorem make_layer_stage_structure_and_shape_witness :
    1 ≤ 4 ∧
    outShape (make_layer 24 116 4 2) [1, 24, 2 * 28, 2 * 28] = some [1, 116, 28, 28] :=
  ⟨by decide,
   (make_layer_stage_structure_and_shape 24 116 4 1 28 28 (by decide) (by decide)
     (by decide)).2.2.2.2⟩

/-- Claim C5 counterexample: the claim says construction raises whenever a depth
entry is `< 1` (or a channel width is odd or non-positive).  In the code there
is no such check: with the depth sequence `[0, 8, 4]` (first entry `0 < 1`) and
otherwise valid widths, `make_layer` still returns a one-unit stage and the
assembled network's forward pass is well defined end to end. -/
theorem construction_accepts_invalid_config :
    make_layer 24 116 0 2 =
      Layer.comp (InvertedResidualBlock 24 116 2) Layer.idLayer ∧
    outShape (ShuffleNetV2 3 10 [0, 8, 4] [24, 116, 232, 464, 1024])
      [1, 3, 224, 224] = some [1, 10] :=
  ⟨rfl,
   ShuffleNetV2_shape 3 10 24 116 232 464 1024 0 8 4 1 7 (by decide) (by decide)
     (by decide) (by decide) (by decide) (by decide) (by decide) (by decide)⟩

/-- Claim C5 amended: of the three claimed construction-time checks only the
zero-width one exists, and only through the convolution constructor.  A depth
entry `d < 1` does not raise: `make_layer` returns a stage of `max 1 d` units
for every `d`, and a configuration with depth entry `0` passes constructor
validation and evaluates end to end.  An odd width among `c1, c2, c3` also
passes constructor validation (failures from odd widths surface only at
evaluation time).  A zero width among `c0, c1, c2, c3`, however, is rejected at
construction: it forces a depthwise convolution with group count `0`, which the
convolution constructor refuses; a zero final width `c4` reaches no depthwise
convolution and is accepted. -/
theorem construction_validation_behaviour (cin cout d s b : Nat) :
    seqLength (make_layer cin cout d s) = max 1 d ∧
    constructOk (ShuffleNetV2 3 10 [0, 8, 4] [24, 116, 232, 464, 1024]) = true ∧
    outShape (ShuffleNetV2 3 10 [0, 8, 4] [24, 116, 232, 464, 1024])
      [b, 3, 224, 224] = some [b, 10] ∧
    constructOk (ShuffleNetV2 3 10 [4, 8, 4] [24, 115, 232, 464, 1024]) = true ∧
    constructOk (ShuffleNetV2 3 10 [4, 8, 4] [0, 116, 232, 464, 1024]) = false ∧
    constructOk (ShuffleNetV2 3 10 [4, 8, 4] [24, 0, 232, 464, 1024]) = false ∧
    constructOk (ShuffleNetV2 3 10 [4, 8, 4] [24, 116, 0, 464, 1024]) = false ∧
    constructOk (ShuffleNetV2 3 10 [4, 8, 4] [24, 116, 232, 0, 1024]) = false ∧
    constructOk (ShuffleNetV2 3 10 [4, 8, 4] [24, 116, 232, 464, 0]) = true := by
  refine ⟨?_, by decide, ?_, by decide, by decide, by decide, by decide, by decide,
    by decide⟩
  · have hlen : seqLength (make_layer cin cout d s) =
        (InvertedResidualBlock cin cout s ::
          List.replicate (d - 1) (InvertedResidualBlock cout cout 1)).length :=
      seqLength_seqL _
    rw [hlen]
    simp only [List.length_cons, List.length_replicate]
    omega
  · exact ShuffleNetV2_shape 3 10 24 116 232 464 1024 0 8 4 b 7 (by decide)
      (by decide) (by decide) (by decide) (by decide) (by decide) (by decide)
      (by decide)

/-- Claim C6: channel shuffle with group count 2 on a tensor whose 6-entry
channel axis holds `[0, 1, 2, 3, 4, 5]` yields `[0, 3, 1, 4, 2, 5]`, with the
shape (batch and spatial axes) untouched; the operation is the
reshape-transpose-flatten of `channel_shuffle`. -/
theorem channel_shuffle_groups2_example :
    (channel_shuffle tensor6 2).shape = [1, 6, 1, 1] ∧
    (List.range 6).map (fun j => (channel_shuffle tensor6 2).at4 0 j 0 0) =
      [0, 3, 1, 4, 2, 5] := by
  constructor <;> rfl

/-- Claim C7: on any tensor with a 6-entry channel axis, channel shuffle with
2 groups followed by channel shuffle with 3 groups is the identity on every
in-range cell, and preserves the shape. -/
theorem channel_shuffle_g2_g3_identity (x : Tensor) (bB hH wW : Nat)
    (hs : x.shape = [bB, 6, hH, wW]) (b c h w : Nat) (hc : c < 6)
    (hh : h < hH) (hw : w < wW) :
    (channel_shuffle (channel_shuffle x 2) 3).shape = [bB, 6, hH, wW] ∧
    (channel_shuffle (channel_shuffle x 2) 3).at4 b c h w = x.at4 b c h w := by
  have h2 : (channel_shuffle x 2).shape = [bB, 6, hH, wW] :=
    channel_shuffle_shape x bB 6 hH wW 2 hs
  constructor
  · exact channel_shuffle_shape _ bB 6 hH wW 3 h2
  · rw [shuffle6_at (channel_shuffle x 2) bB hH wW 3 h2 (Or.inr rfl) b c h w hc hh hw]
    rw [shuffle6_at x bB hH wW 2 hs (Or.inl rfl) b (c % 3 * (6 / 3) + c / 3) h w
      (by omega) hh hw]
    exact at4_chan_congr x b _ c h w (by omega)

/-- Witness for claim C7 on the concrete tensor `tensor6` at channel 4. -/
theorem channel_shuffle_g2_g3_identity_witness :
    tensor6.shape = [1, 6, 1, 1] ∧ 4 < 6 ∧
    (channel_shuffle (channel_shuffle tensor6 2) 3).at4 0 4 0 0 =
      tensor6.at4 0 4 0 0 :=
  ⟨rfl, by decide,
   (channel_shuffle_g2_g3_identity tensor6 1 1 1 rfl 0 4 0 0 (by decide) (by decide)
     (by decide)).2⟩

/-- Claim C9: `DSConvBlock(Cin, Cout, k, p, s, flag)` is exactly the sequence
depthwise Conv2d (`Cin` to `Cin`, groups `Cin`, kernel `k`, padding `p`, stride
`s`, no bias), BatchNorm2d over `Cin`, pointwise 1x1 Conv2d (`Cin` to `Cout`,
no bias), BatchNorm2d over `Cout`, and ReLU exactly when the flag is set; its
output shape is `[b, Cout, convOut h, convOut w]`. -/
theorem dsconv_structure_and_shape (cin cout k p s b h w : Nat)
    (hin : 1 ≤ cin) (hk : 1 ≤ k) (hs : 1 ≤ s)
    (hh : k ≤ h + 2 * p) (hw : k ≤ w + 2 * p) :
    DSConvBlock cin cout k p s true =
      seqL [Layer.conv2d cin cin k p s cin false, Layer.batchNorm2d cin,
            Layer.conv2d cin cout 1 0 1 1 false, Layer.batchNorm2d cout,
            Layer.relu] ∧
    DSConvBlock cin cout k p s false =
      seqL [Layer.conv2d cin cin k p s cin false, Layer.batchNorm2d cin,
            Layer.conv2d cin cout 1 0 1 1 false, Layer.batchNorm2d cout] ∧
    outShape (DSConvBlock cin cout k p s true) [b, cin, h, w] =
      some [b, cout, convOut h k p s, convOut w k p s] :=
  ⟨rfl, rfl, DSConvBlock_shape cin cout k p s true b cin h w rfl hin hs hk hh hw⟩

/-- Witness for claim C9 at `Cin = 4`, `Cout = 6`, kernel 3, padding 1,
stride 2 on a `1 x 4 x 5 x 5` input. -/
theorem dsconv_structure_and_shape_witness :
    1 ≤ 4 ∧ 3 ≤ 5 + 2 * 1 ∧
    outShape (DSConvBlock 4 6 3 1 2 true) [1, 4, 5, 5] = some [1, 6, 3, 3] :=
  ⟨by decide, by decide,
   (dsconv_structure_and_shape 4 6 3 1 2 1 5 5 (by decide) (by decide) (by decide)
     (by decide) (by decide)).2.2⟩

/-- Claim C3: each of the four presets, for any batch size `b >= 1`, input
channel count in `{1, 3}` and class count in `{1, 10, 1000}`, maps an input of
shape `[b, in_channels, 224, 224]` to an output of shape `[b, num_classes]`. -/
theorem preset_forward_output_shape (b ic nc : Nat) (hb : 1 ≤ b)
    (hic : ic = 1 ∨ ic = 3) (hnc : nc = 1 ∨ nc = 10 ∨ nc = 1000) :
    outShape (shufflenetv2_x0_5 ic nc) [b, ic, 224, 224] = some [b, nc] ∧
    outShape (shufflenetv2_x1_0 ic nc) [b, ic, 224, 224] = some [b, nc] ∧
    outShape (shufflenetv2_x1_5 ic nc) [b, ic, 224, 224] = some [b, nc] ∧
    outShape (shufflenetv2_x2_0 ic nc) [b, ic, 224, 224] = some [b, nc] :=
  ⟨ShuffleNetV2_shape ic nc 24 48 96 192 1024 4 8 4 b 7 (by decide) (by decide)
     (by decide) (by decide) (by decide) (by decide) (by decide) (by decide),
   ShuffleNetV2_shape ic nc 24 116 232 464 1024 4 8 4 b 7 (by decide) (by decide)
     (by decide) (by decide) (by decide) (by decide) (by decide) (by decide),
   ShuffleNetV2_shape ic nc 24 176 352 704 1024 4 8 4 b 7 (by decide) (by decide)
     (by decide) (by decide) (by decide) (by decide) (by decide) (by decide),
   ShuffleNetV2_shape ic nc 24 244 488 976 2048 4 8 4 b 7 (by decide) (by decide)
     (by decide) (by decide) (by decide) (by decide) (by decide) (by decide)⟩

/-- Witness for claim C3: the x1_0 preset with 3 input channels and 1000
classes on a batch of 2. -/
theorem preset_forward_output_shape_witness :
    1 ≤ 2 ∧ (3 = 1 ∨ 3 = 3) ∧ (1000 = 1 ∨ 1000 = 10 ∨ 1000 = 1000) ∧
    outShape (shufflenetv2_x1_0 3 1000) [2, 3, 224, 224] = some [2, 1000] :=
  ⟨by decide, by decide, by decide,
   (preset_forward_output_shape 2 3 1000 (by decide) (by decide) (by decide)).2.1⟩

/-- Claim C8: the assembled network is, in order, a head
(`ConvBlock(in, c0, 3x3, padding 1, stride 2)` then max pooling with window 3,
stride 2, padding 1), three stages, a 1x1 tail `ConvBlock(c3, c4)`, global
average pooling to `1 x 1`, flatten, and a final linear projection with nothing
after it; for an input whose spatial size is `32k`, the tail output has spatial
size exactly `k`, and the full forward pass emits `[b, num_classes]`. -/
theorem network_assembly_and_downsampling (ic nc c0 c1 c2 c3 c4 d1 d2 d3 b k : Nat)
    (hk : 1 ≤ k) (hc0 : 1 ≤ c0) (hc1 : 2 ≤ c1) (he1 : c1 % 2 = 0)
    (hc2 : 2 ≤ c2) (he2 : c2 % 2 = 0) (hc3 : 2 ≤ c3) (he3 : c3 % 2 = 0) :
    ShuffleNetV2 ic nc [d1, d2, d3] [c0, c1, c2, c3, c4] =
      seqL [ShuffleNetV2_features ic [d1, d2, d3] [c0, c1, c2, c3, c4],
            ShuffleNetV2_classifier nc [c0, c1, c2, c3, c4]] ∧
    ShuffleNetV2_features ic [d1, d2, d3] [c0, c1, c2, c3, c4] =
      seqL [seqL [ConvBlock ic c0 3 1 2 true, Layer.maxPool2d 3 2 1],
            make_layer c0 c1 d1 2, make_layer c1 c2 d2 2, make_layer c2 c3 d3 2,
            ConvBlock c3 c4 1 0 1 true] ∧
    ShuffleNetV2_classifier nc [c0, c1, c2, c3, c4] =
      seqL [Layer.adaptiveAvgPool2d 1, Layer.flatten, Layer.linear c4 nc] ∧
    outShape (ShuffleNetV2_features ic [d1, d2, d3] [c0, c1, c2, c3, c4])
      [b, ic, 32 * k, 32 * k] = some [b, c4, k, k] ∧
    outShape (ShuffleNetV2 ic nc [d1, d2, d3] [c0, c1, c2, c3, c4])
      [b, ic, 32 * k, 32 * k] = some [b, nc] :=
  ⟨rfl, rfl, rfl,
   ShuffleNetV2_features_shape ic c0 c1 c2 c3 c4 d1 d2 d3 b k hk hc0 hc1 he1 hc2
     he2 hc3 he3,
   ShuffleNetV2_shape ic nc c0 c1 c2 c3 c4 d1 d2 d3 b k hk hc0 hc1 he1 hc2 he2
     hc3 he3⟩

/-- Witness for claim C8 at the x1_0 configuration, `k = 7` (input spatial size
224), 3 input channels, 1000 classes, batch 2. -/
theorem network_assembly_and_downsampling_witness :
    1 ≤ 7 ∧ 116 % 2 = 0 ∧
    outShape (ShuffleNetV2_features 3 [4, 8, 4] [24, 116, 232, 464, 1024])
      [2, 3, 32 * 7, 32 * 7] = some [2, 1024, 7, 7] ∧
    outShape (ShuffleNetV2 3 1000 [4, 8, 4] [24, 116, 232, 464, 1024])
      [2, 3, 32 * 7, 32 * 7] = some [2, 1000] :=
  ⟨by decide, rfl,
   (network_assembly_and_downsampling 3 1000 24 116 232 464 1024 4 8 4 2 7
     (by decide) (by decide) (by decide) (by decide) (by decide) (by decide)
     (by decide) (by decide)).2.2.2.1,
   (network_assembly_and_downsampling 3 1000 24 116 232 464 1024 4 8 4 2 7
     (by decide) (by decide) (by decide) (by decide) (by decide) (by decide)
     (by decide) (by decide)).2.2.2.2⟩
